import Mathlib

/-!
A shallow embedding of `src/Hangman.py`: the player-persistence layer
(class `Player`) and the game-round loop (`Game.play_game`), together with
proofs about them.

Modelling conventions:
* The JSON file is an `Option Store`: `none` means the file does not exist,
  `some m` means it holds the serialized mapping `m`.  A JSON object is an
  association list (Python dicts and `json` round-trips preserve insertion
  order); `dictInsert` is Python's `d[k] = v`, `dictLookup` is `d[k]` /
  `k in d`.
* Machine input is modelled as the list of (already `strip`ped) lines the
  player types; `play_game` becomes `playGame`, a function of the state and
  that list, returning `none` when the loop would still be blocked on input.
* Python `str.isalpha` is modelled by `pyIsAlpha` using `Char.isAlpha`
  (ASCII letters); every input the claims mention is ASCII.
-/

set_option autoImplicit false

namespace Hangman

universe u

/-- A player with name, score, and number of rounds played
(class `Player`, `Hangman.py` lines 19-28). -/
structure Player where
  player_name : String
  score : Nat
  rounds : Nat
deriving DecidableEq, Repr

/-- One serialized player record: an ordered list of JSON field/value pairs
(the object written at `Hangman.py` line 44: `{'Score': ..., 'Rounds': ...}`). -/
abbrev Entry := List (String × Nat)

/-- The serialized top-level mapping of the JSON file: player name to entry. -/
abbrev Store := List (String × Entry)

/-- Python dict assignment `d[k] = v` on an ordered association list:
replace the value at the first occurrence of `k`, else append. -/
def dictInsert {α : Type u} (k : String) (v : α) : List (String × α) → List (String × α)
  | [] => [(k, v)]
  | (k', v') :: rest => if k' = k then (k, v) :: rest else (k', v') :: dictInsert k v rest

/-- Python dict lookup `d.get(k)` on an ordered association list. -/
def dictLookup {α : Type u} (k : String) : List (String × α) → Option α
  | [] => none
  | (k', v) :: rest => if k' = k then some v else dictLookup k rest

/-- The JSON object stored for one player (`Hangman.py` lines 44 and 65-68). -/
def playerEntry (score rounds : Nat) : Entry :=
  [("Score", score), ("Rounds", rounds)]

/-- `Player.load_players` (lines 30-37): the file contents when the file
exists, the empty mapping otherwise. -/
def load_players (file : Option Store) : Store := file.getD []

/-- `Player.create_player` (lines 39-48): build a fresh player, write its
zero entry into the loaded mapping, and return the player together with the
newly persisted mapping. -/
def create_player (name : String) (file : Option Store) : Player × Store :=
  let p : Player := ⟨name, 0, 0⟩
  (p, dictInsert name (playerEntry p.score p.rounds) (load_players file))

/-- `Player.player_exists` (lines 50-54). -/
def player_exists (name : String) (file : Option Store) : Bool :=
  (dictLookup name (load_players file)).isSome

/-- `Player.clear_player` (lines 56-60): the file is overwritten with `{}`. -/
def clear_player : Store := []

/-- `Player.update_player` (lines 62-70): reload the mapping, overwrite this
player's entry with the current score and rounds, persist. -/
def update_player (p : Player) (file : Option Store) : Store :=
  dictInsert p.player_name (playerEntry p.score p.rounds) (load_players file)

/-- The fixed word list of `Game.get_random_word` (lines 84-99);
`get_random_word` draws a random member of this list. -/
def words : List String := [
  "apple", "banana", "orange", "grape", "pear", "peach", "cherry",
  "lemon", "lime", "mango", "book", "pen", "paper", "notebook", "pencil",
  "eraser", "ruler", "desk", "chair", "lamp", "dog", "cat", "bird", "fish",
  "horse", "cow", "sheep", "goat", "pig", "rabbit", "run", "jump", "swim",
  "fly", "write", "read", "draw", "sing", "dance", "play", "happy", "sad",
  "angry", "tired", "excited", "scared", "brave", "funny", "kind", "smart",
  "house", "school", "office", "shop", "park", "garden", "street", "city",
  "village", "country", "car", "bike", "bus", "train", "plane", "boat",
  "truck", "scooter", "taxi", "subway", "red", "blue", "green", "yellow",
  "orange", "purple", "black", "white", "pink", "brown", "day", "night",
  "morning", "evening", "week", "month", "year", "hour", "minute", "second",
  "food", "water", "milk", "bread", "cheese", "meat", "rice", "soup",
  "fruit", "vegetable", "light", "dark", "hot", "cold", "warm", "cool",
  "strong", "weak", "big", "small"]

/-- `Game.guessed_word` (lines 115-117): every letter of the word occurs in
the guessed-letters list. -/
def guessed_word (word guessed_letters : List Char) : Bool :=
  word.all (fun letter => decide (letter ∈ guessed_letters))

/-- Python `str.isalpha`: non-empty and all characters alphabetic. -/
def pyIsAlpha (s : String) : Bool :=
  !s.data.isEmpty && s.data.all Char.isAlpha

/-- The mutable state of one round of `Game.play_game` plus the player and
the backing file it mutates. -/
structure RoundState where
  word : List Char
  guessed_letters : List Char
  wrong_letters : List String
  attempt : Nat
  player : Player
  file : Option Store
deriving DecidableEq, Repr

/-- The reveal loop of a correct guess (lines 229-231): every position of
`word` holding the guessed letter is overwritten into `guessed`. -/
def reveal (word guessed : List Char) (g : Char) : List Char :=
  List.zipWith (fun l old => if l = g then g else old) word guessed

/-- What `play_game` returns, together with the player object and the store
contents at the moment of return. -/
structure GameResult where
  won : Bool
  exposed : Option (List Char)
  player : Player
  store : Store
deriving DecidableEq, Repr

/-- The two terminal checks at the top of the `while` loop
(lines 204-213): the win check runs first, the attempt-limit check second. -/
def checkTerminal (s : RoundState) : Option GameResult :=
  if guessed_word s.word s.guessed_letters then
    let p : Player := { s.player with rounds := s.player.rounds + 1 }
    some ⟨true, none, p, update_player p s.file⟩
  else if s.attempt = 7 then
    some ⟨false, some s.word, s.player, update_player s.player s.file⟩
  else none

/-- Processing of one guess input (lines 215-243): duplicate wrong letters
and invalid inputs leave the state unchanged; a correct guess reveals and
scores 10; a wrong guess is appended and consumes an attempt. -/
def processGuess (s : RoundState) (guess : String) : RoundState :=
  if guess ∈ s.wrong_letters then s
  else if guess.length != 1 || !(pyIsAlpha guess) then s
  else match guess.data with
    | [g] =>
      if g ∈ s.word then
        { s with guessed_letters := reveal s.word s.guessed_letters g,
                 player := { s.player with score := s.player.score + 10 } }
      else
        { s with wrong_letters := s.wrong_letters ++ [guess],
                 attempt := s.attempt + 1 }
    | _ => s

/-- `Game.play_game` (lines 189-243) over an explicit list of input lines:
run the terminal checks, then consume the next input; `none` means the loop
is still waiting for input. -/
def playGame (s : RoundState) : List String → Option GameResult
  | [] => checkTerminal s
  | g :: rest =>
    match checkTerminal s with
    | some r => some r
    | none => playGame (processGuess s g) rest

/-- The state at the top of the first loop iteration (lines 196-199). -/
def initRound (word : List Char) (p : Player) (file : Option Store) : RoundState :=
  ⟨word, List.replicate word.length '_', [], 0, p, file⟩

/-- A word from the fixed list is won by guessing its distinct letters in
order of first occurrence, with no wrong guesses: the checked outcome is
`(True, None)` with one more round, `10` points per distinct letter, and
the player flushed to the store. -/
def winsWithDistinctLetters (w : String) : Bool :=
  let p : Player := ⟨"P", 0, 0⟩
  let q : Player := ⟨"P", 10 * w.data.dedup.length, 1⟩
  playGame (initRound w.data p none) (w.data.dedup.map (fun c => String.mk [c])) =
    some ⟨true, none, q, update_player q none⟩

/-! ### Association-list lemmas for the persistence layer -/

theorem dictLookup_dictInsert_self {α : Type u} (k : String) (v : α)
    (s : List (String × α)) : dictLookup k (dictInsert k v s) = some v := by
  induction s with
  | nil => simp [dictInsert, dictLookup]
  | cons hd tl ih =>
    obtain ⟨k', v'⟩ := hd
    by_cases h : k' = k
    · simp [dictInsert, dictLookup, h]
    · simp [dictInsert, dictLookup, h, ih]

theorem dictLookup_dictInsert_ne {α : Type u} (k q : String) (v : α)
    (s : List (String × α)) (hne : q ≠ k) :
    dictLookup q (dictInsert k v s) = dictLookup q s := by
  induction s with
  | nil => simp [dictInsert, dictLookup, hne.symm]
  | cons hd tl ih =>
    obtain ⟨k', v'⟩ := hd
    by_cases h : k' = k
    · subst h
      simp [dictInsert, dictLookup, hne.symm]
    · simp [dictInsert, dictLookup, h, ih]

theorem dictInsert_idem {α : Type u} (k : String) (v : α)
    (s : List (String × α)) :
    dictInsert k v (dictInsert k v s) = dictInsert k v s := by
  induction s with
  | nil => simp [dictInsert]
  | cons hd tl ih =>
    obtain ⟨k', v'⟩ := hd
    by_cases h : k' = k
    · simp [dictInsert, h]
    · simp [dictInsert, h, ih]

/-! ### Round-loop lemmas -/

/-- One unfolding of the loop: if neither terminal check fires, the next
input line is consumed. -/
theorem playGame_cons (s : RoundState) (g : String) (rest : List String)
    (hterm : checkTerminal s = none) :
    playGame s (g :: rest) = playGame (processGuess s g) rest := by
  simp [playGame, hterm]

/-- Entering the loop with the word fully guessed returns the winning
result at once, whatever the inputs and the attempt count. -/
theorem playGame_won (s : RoundState) (inputs : List String)
    (hw : guessed_word s.word s.guessed_letters = true) :
    playGame s inputs =
      some ⟨true, none, { s.player with rounds := s.player.rounds + 1 },
            update_player { s.player with rounds := s.player.rounds + 1 } s.file⟩ := by
  cases inputs with
  | nil => simp [playGame, checkTerminal, hw]
  | cons g rest => simp [playGame, checkTerminal, hw]

/-- A guess never writes the store: the backing file is untouched by every
branch of the guess processing. -/
theorem processGuess_file (s : RoundState) (g : String) :
    (processGuess s g).file = s.file := by
  unfold processGuess
  split
  · rfl
  · split
    · rfl
    · split
      · split <;> rfl
      · rfl

/-- Both terminal transitions flush the returned player to the store. -/
theorem checkTerminal_flushes (s : RoundState) (r : GameResult)
    (h : checkTerminal s = some r) :
    r.store = update_player r.player s.file := by
  unfold checkTerminal at h
  split at h
  · cases h; rfl
  · split at h
    · cases h; rfl
    · cases h

/-- A guess already present in the wrong-letter list is rejected with the
state unchanged (lines 217-220). -/
theorem processGuess_dup (s : RoundState) (g : String)
    (hdup : g ∈ s.wrong_letters) : processGuess s g = s := by
  simp [processGuess, hdup]

/-- A guess that is not exactly one alphabetic character leaves the state
unchanged (lines 222-225; a duplicate hit on line 218 also returns `s`). -/
theorem processGuess_invalid (s : RoundState) (g : String)
    (hbad : g.length ≠ 1 ∨ pyIsAlpha g = false) :
    processGuess s g = s := by
  unfold processGuess
  split
  · rfl
  · have hc : (g.length != 1 || !(pyIsAlpha g)) = true := by
      rcases hbad with h | h
      · simp [h]
      · simp [h]
    simp [hc]

/-- An accepted correct guess reveals its positions and adds 10 to the
score; nothing else changes (lines 228-233). -/
theorem processGuess_correct (s : RoundState) (c : Char)
    (hdup : String.mk [c] ∉ s.wrong_letters) (ha : c.isAlpha = true)
    (hin : c ∈ s.word) :
    processGuess s (String.mk [c]) =
      { s with guessed_letters := reveal s.word s.guessed_letters c,
               player := { s.player with score := s.player.score + 10 } } := by
  simp [processGuess, pyIsAlpha, String.length, hdup, ha, hin]

/-- An accepted wrong guess is appended to the wrong-letter list and
consumes one attempt; nothing else changes (lines 238-243). -/
theorem processGuess_wrong (s : RoundState) (c : Char)
    (hdup : String.mk [c] ∉ s.wrong_letters) (ha : c.isAlpha = true)
    (hnin : c ∉ s.word) :
    processGuess s (String.mk [c]) =
      { s with wrong_letters := s.wrong_letters ++ [String.mk [c]],
               attempt := s.attempt + 1 } := by
  simp [processGuess, pyIsAlpha, String.length, hdup, ha, hnin]

theorem length_reveal (word guessed : List Char) (g : Char) :
    (reveal word guessed g).length = min word.length guessed.length := by
  simp [reveal]

/-- Positionwise description of the reveal loop: a position keeps its old
content unless the word holds the guessed letter there, in which case it
becomes that letter. -/
theorem reveal_get (word guessed : List Char) (g : Char) (i : Nat)
    (hw : i < word.length) (hg : i < guessed.length)
    (hr : i < (reveal word guessed g).length) :
    (reveal word guessed g).get ⟨i, hr⟩ =
      if word.get ⟨i, hw⟩ = g then g else guessed.get ⟨i, hg⟩ := by
  simp [reveal, List.get_eq_getElem, List.getElem_zipWith]

/-- At the start of a round over a non-empty all-alphabetic word, the win
condition does not hold: the placeholder is not a letter. -/
theorem guessed_word_replicate_false (w : List Char) (hne : w ≠ [])
    (ha : ∀ c ∈ w, c.isAlpha = true) :
    guessed_word w (List.replicate w.length '_') = false := by
  rcases w with _ | ⟨c, rest⟩
  · exact absurd rfl hne
  · rw [Bool.eq_false_iff]
    intro hall
    rw [guessed_word, List.all_eq_true] at hall
    have hmem := hall c (List.mem_cons_self c rest)
    rw [decide_eq_true_iff] at hmem
    have hc := List.eq_of_mem_replicate hmem
    subst hc
    exact absurd (ha '_' (List.mem_cons_self _ rest)) (by decide)

/-- A one-letter guess string distinct from `g` stays outside the
wrong-letter list after `g`'s string is appended. -/
theorem mk_notMem_append (c g : Char) (wl : List String)
    (h1 : String.mk [c] ∉ wl) (hne : c ≠ g) :
    String.mk [c] ∉ wl ++ [String.mk [g]] := by
  intro hmem
  rcases List.mem_append.mp hmem with h | h
  · exact h1 h
  · rw [List.mem_singleton] at h
    have hdata : [c] = [g] := congrArg String.data h
    simp at hdata
    exact hne hdata

/-- Folding a run of fresh, valid, wrong guesses over the state: they pile
up in the wrong-letter list and the attempt counter, and touch nothing
else. -/
theorem foldl_wrong_run (w glet : List Char) (p : Player) (file : Option Store)
    (gs : List Char) :
    ∀ (wl : List String) (a : Nat),
      (∀ c ∈ gs, String.mk [c] ∉ wl) → gs.Nodup →
      (∀ c ∈ gs, c.isAlpha = true) → (∀ c ∈ gs, c ∉ w) →
      List.foldl processGuess ⟨w, glet, wl, a, p, file⟩
          (gs.map (fun c => String.mk [c])) =
        ⟨w, glet, wl ++ gs.map (fun c => String.mk [c]), a + gs.length, p, file⟩ := by
  induction gs with
  | nil => intro wl a _ _ _ _; simp
  | cons g rest ih =>
    intro wl a hdup hnd ha hnin
    rw [List.map_cons, List.foldl_cons]
    rw [processGuess_wrong ⟨w, glet, wl, a, p, file⟩ g (hdup g (by simp))
      (ha g (by simp)) (hnin g (by simp))]
    have hgrest : g ∉ rest := (List.nodup_cons.mp hnd).1
    rw [ih (wl ++ [String.mk [g]]) (a + 1)
      (fun c hc => mk_notMem_append c g wl (hdup c (List.mem_cons_of_mem g hc))
        (fun h => hgrest (h ▸ hc)))
      (List.nodup_cons.mp hnd).2
      (fun c hc => ha c (List.mem_cons_of_mem g hc))
      (fun c hc => hnin c (List.mem_cons_of_mem g hc))]
    simp [List.append_assoc]
    omega

/-- Running the loop on a complete run of 7 fresh, valid, wrong guesses
from an unguessed position reaches the loss transition: the word is
exposed, the player is returned as accumulated, and flushed to the store. -/
theorem playGame_wrong_run (w glet : List Char) (p : Player) (file : Option Store)
    (hw : guessed_word w glet = false) (gs : List Char) :
    ∀ (wl : List String) (a : Nat),
      a + gs.length = 7 →
      (∀ c ∈ gs, String.mk [c] ∉ wl) → gs.Nodup →
      (∀ c ∈ gs, c.isAlpha = true) → (∀ c ∈ gs, c ∉ w) →
      playGame ⟨w, glet, wl, a, p, file⟩ (gs.map (fun c => String.mk [c])) =
        some ⟨false, some w, p, update_player p file⟩ := by
  induction gs with
  | nil =>
    intro wl a h7 _ _ _ _
    rw [List.length_nil] at h7
    have : a = 7 := by omega
    subst this
    simp [playGame, checkTerminal, hw]
  | cons g rest ih =>
    intro wl a h7 hdup hnd ha hnin
    rw [List.length_cons] at h7
    have h7' : a + 1 + rest.length = 7 := by omega
    have ha7 : a ≠ 7 := by omega
    rw [List.map_cons]
    rw [playGame_cons _ _ _ (by simp [checkTerminal, hw, ha7])]
    rw [processGuess_wrong ⟨w, glet, wl, a, p, file⟩ g (hdup g (by simp))
      (ha g (by simp)) (hnin g (by simp))]
    have hgrest : g ∉ rest := (List.nodup_cons.mp hnd).1
    exact ih (wl ++ [String.mk [g]]) (a + 1) h7'
      (fun c hc => mk_notMem_append c g wl (hdup c (List.mem_cons_of_mem g hc))
        (fun h => hgrest (h ▸ hc)))
      (List.nodup_cons.mp hnd).2
      (fun c hc => ha c (List.mem_cons_of_mem g hc))
      (fun c hc => hnin c (List.mem_cons_of_mem g hc))

/-! ### Claim theorems -/

/-- Claim C1, counterexample: in a round over `cat` with the player's zero
entry on file, the first correct guess `c` raises the in-memory score to 10,
yet the mapping read back from the file still holds the old entry and does
not reflect the current score — nothing is flushed before the next guess. -/
theorem C1_counterexample :
    (processGuess (initRound ['c', 'a', 't'] ⟨"Alice", 0, 0⟩
        (some [("Alice", playerEntry 0 0)])) "c").player.score = 10
    ∧ load_players (processGuess (initRound ['c', 'a', 't'] ⟨"Alice", 0, 0⟩
        (some [("Alice", playerEntry 0 0)])) "c").file = [("Alice", playerEntry 0 0)]
    ∧ dictLookup "Alice" (load_players (processGuess (initRound ['c', 'a', 't']
        ⟨"Alice", 0, 0⟩ (some [("Alice", playerEntry 0 0)])) "c").file) ≠
      some (playerEntry 10 0) :=
  ⟨by decide, by decide, by decide⟩

/-- Claim C1 as amended: score and round mutations are flushed to the store
only at the terminal transitions of the round, not after each accepted
correct guess — processing a guess never writes the file, and both terminal
transitions persist the returned player, whose entry then reads back with
the player's final score and rounds. -/
theorem C1_persistence_at_terminal :
    (∀ (s : RoundState) (g : String), (processGuess s g).file = s.file)
    ∧ (∀ (s : RoundState) (r : GameResult), checkTerminal s = some r →
        r.store = update_player r.player s.file
        ∧ dictLookup r.player.player_name r.store =
            some (playerEntry r.player.score r.player.rounds)) := by
  refine ⟨processGuess_file, fun s r h => ?_⟩
  have hst := checkTerminal_flushes s r h
  exact ⟨hst, by rw [hst]; exact dictLookup_dictInsert_self _ _ _⟩

/-- Witness for the amended C1 at a concrete winning state. -/
theorem C1_persistence_witness :
    (processGuess (initRound ['c', 'a', 't'] ⟨"A", 0, 0⟩ none) "c").file = none
    ∧ checkTerminal ⟨['a'], ['a'], [], 0, ⟨"A", 10, 0⟩, none⟩ =
        some ⟨true, none, ⟨"A", 10, 1⟩, [("A", playerEntry 10 1)]⟩
    ∧ (⟨true, none, ⟨"A", 10, 1⟩, [("A", playerEntry 10 1)]⟩ : GameResult).store =
        update_player ⟨"A", 10, 1⟩ none :=
  ⟨C1_persistence_at_terminal.1 (initRound ['c', 'a', 't'] ⟨"A", 0, 0⟩ none) "c",
   by decide,
   (C1_persistence_at_terminal.2 ⟨['a'], ['a'], [], 0, ⟨"A", 10, 0⟩, none⟩
     ⟨true, none, ⟨"A", 10, 1⟩, [("A", playerEntry 10 1)]⟩ (by decide)).1⟩

/-- Claim C2: a round whose word is fully guessed transitions to Won —
rounds go up by one, the player is flushed to the store, and the result is
`(True, None)`; moreover every word of the fixed list is won by guessing
its distinct letters with no wrong guess. -/
theorem C2_win_transition :
    (∀ (s : RoundState) (inputs : List String),
        guessed_word s.word s.guessed_letters = true →
        playGame s inputs =
          some ⟨true, none, { s.player with rounds := s.player.rounds + 1 },
                update_player { s.player with rounds := s.player.rounds + 1 } s.file⟩)
    ∧ words.all winsWithDistinctLetters = true :=
  ⟨playGame_won, by decide⟩

/-- Witness for C2 at a concrete completed round. -/
theorem C2_win_witness :
    guessed_word ['a'] ['a'] = true
    ∧ playGame ⟨['a'], ['a'], [], 0, ⟨"A", 0, 0⟩, none⟩ [] =
        some ⟨true, none, ⟨"A", 0, 1⟩, update_player ⟨"A", 0, 1⟩ none⟩ :=
  ⟨by decide, C2_win_transition.1 ⟨['a'], ['a'], [], 0, ⟨"A", 0, 0⟩, none⟩ [] (by decide)⟩

/-- Claim C3: seven distinct valid wrong guesses from the start of a round
reach the Lost transition with the secret word exposed, the player returned
as accumulated (no round increment) and flushed to the store, and the
attempt counter at exactly 7. -/
theorem C3_loss_after_seven (w : List Char) (p : Player) (file : Option Store)
    (gs : List Char)
    (hne : w ≠ []) (halpha : ∀ c ∈ w, c.isAlpha = true)
    (hlen : gs.length = 7) (hnd : gs.Nodup)
    (ga : ∀ c ∈ gs, c.isAlpha = true) (gnin : ∀ c ∈ gs, c ∉ w) :
    playGame (initRound w p file) (gs.map (fun c => String.mk [c])) =
      some ⟨false, some w, p, update_player p file⟩
    ∧ (List.foldl processGuess (initRound w p file)
        (gs.map (fun c => String.mk [c]))).attempt = 7 := by
  have hw := guessed_word_replicate_false w hne halpha
  constructor
  · have h := playGame_wrong_run w (List.replicate w.length '_') p file hw gs
      [] 0 (by omega) (by simp) hnd ga gnin
    simpa [initRound] using h
  · have h := foldl_wrong_run w (List.replicate w.length '_') p file gs
      [] 0 (by simp) hnd ga gnin
    rw [initRound, h]
    simp [hlen]

/-- Witness for C3: the spec's own scenario, word `dog` with the seven
distinct wrong letters `x,y,z,q,w,e,r`. -/
theorem C3_loss_witness :
    (['x', 'y', 'z', 'q', 'w', 'e', 'r'].length = 7
      ∧ ['x', 'y', 'z', 'q', 'w', 'e', 'r'].Nodup)
    ∧ (playGame (initRound ['d', 'o', 'g'] ⟨"A", 0, 0⟩ none)
          (['x', 'y', 'z', 'q', 'w', 'e', 'r'].map (fun c => String.mk [c])) =
        some ⟨false, some ['d', 'o', 'g'], ⟨"A", 0, 0⟩, update_player ⟨"A", 0, 0⟩ none⟩
      ∧ (List.foldl processGuess (initRound ['d', 'o', 'g'] ⟨"A", 0, 0⟩ none)
          (['x', 'y', 'z', 'q', 'w', 'e', 'r'].map (fun c => String.mk [c]))).attempt = 7) :=
  ⟨⟨by decide, by decide⟩,
   C3_loss_after_seven ['d', 'o', 'g'] ⟨"A", 0, 0⟩ none ['x', 'y', 'z', 'q', 'w', 'e', 'r']
     (by decide) (by decide) (by decide) (by decide) (by decide) (by decide)⟩

/-- Claim C4: the win check runs strictly before the attempt-limit check:
from any state whose word is fully guessed, whatever the attempt counter,
the loop returns the Won outcome and never the Lost one. -/
theorem C4_win_check_first (s : RoundState) (inputs : List String)
    (hw : guessed_word s.word s.guessed_letters = true) :
    ∃ r, playGame s inputs = some r ∧ r.won = true ∧ r.exposed = none :=
  ⟨_, playGame_won s inputs hw, rfl, rfl⟩

/-- Witness for C4 at a completed word with the attempt counter already at
its cap of 7: the round still wins. -/
theorem C4_win_witness :
    guessed_word ['a'] ['a'] = true
    ∧ ∃ r, playGame ⟨['a'], ['a'], ["x", "y", "z", "q", "w", "e", "r"], 7,
          ⟨"A", 0, 0⟩, none⟩ [] = some r ∧ r.won = true ∧ r.exposed = none :=
  ⟨by decide,
   C4_win_check_first ⟨['a'], ['a'], ["x", "y", "z", "q", "w", "e", "r"], 7,
     ⟨"A", 0, 0⟩, none⟩ [] (by decide)⟩

/-- Claim C5: an accepted correct guess reveals every position holding that
letter, adds exactly 10 to the score once, and leaves the attempt counter
and wrong-guess list unchanged; the spec's `cat` scenario scores 30 and one
round. -/
theorem C5_correct_guess (s : RoundState) (c : Char)
    (hdup : String.mk [c] ∉ s.wrong_letters) (ha : c.isAlpha = true)
    (hin : c ∈ s.word) :
    processGuess s (String.mk [c]) =
      { s with guessed_letters := reveal s.word s.guessed_letters c,
               player := { s.player with score := s.player.score + 10 } }
    ∧ (∀ (i : Nat) (hiw : i < s.word.length) (hig : i < s.guessed_letters.length)
         (hir : i < (reveal s.word s.guessed_letters c).length),
         s.word.get ⟨i, hiw⟩ = c → (reveal s.word s.guessed_letters c).get ⟨i, hir⟩ = c)
    ∧ (processGuess s (String.mk [c])).attempt = s.attempt
    ∧ (processGuess s (String.mk [c])).wrong_letters = s.wrong_letters
    ∧ playGame (initRound ['c', 'a', 't'] ⟨"A", 0, 0⟩ none) ["c", "a", "t"] =
        some ⟨true, none, ⟨"A", 30, 1⟩, update_player ⟨"A", 30, 1⟩ none⟩ := by
  refine ⟨processGuess_correct s c hdup ha hin, ?_, ?_, ?_, by decide⟩
  · intro i hiw hig hir hc
    rw [reveal_get s.word s.guessed_letters c i hiw hig hir, if_pos hc]
  · rw [processGuess_correct s c hdup ha hin]
  · rw [processGuess_correct s c hdup ha hin]

/-- Witness for C5: guessing `c` in a fresh round over `ca`. -/
theorem C5_correct_witness :
    ('c' ∈ (['c', 'a'] : List Char))
    ∧ processGuess ⟨['c', 'a'], ['_', '_'], [], 0, ⟨"A", 0, 0⟩, none⟩ (String.mk ['c']) =
        ⟨['c', 'a'], reveal ['c', 'a'] ['_', '_'] 'c', [], 0, ⟨"A", 10, 0⟩, none⟩ :=
  ⟨by decide,
   (C5_correct_guess ⟨['c', 'a'], ['_', '_'], [], 0, ⟨"A", 0, 0⟩, none⟩ 'c'
     (by decide) (by decide) (by decide)).1⟩

/-- Claim C6: a guess that is not exactly one alphabetic character is
rejected with the whole state unchanged, no attempt consumed, and the loop
moves on to the next input. -/
theorem C6_invalid_rejected (s : RoundState) (g : String) (rest : List String)
    (hbad : g.length ≠ 1 ∨ pyIsAlpha g = false) :
    processGuess s g = s
    ∧ (checkTerminal s = none → playGame s (g :: rest) = playGame s rest) := by
  refine ⟨processGuess_invalid s g hbad, fun hterm => ?_⟩
  rw [playGame_cons s g rest hterm, processGuess_invalid s g hbad]

/-- Witness for C6 on the spec's example input `ab`. -/
theorem C6_invalid_witness :
    (("ab" : String).length ≠ 1 ∨ pyIsAlpha "ab" = false)
    ∧ processGuess (initRound ['c', 'a', 't'] ⟨"A", 0, 0⟩ none) "ab" =
        initRound ['c', 'a', 't'] ⟨"A", 0, 0⟩ none
    ∧ (checkTerminal (initRound ['c', 'a', 't'] ⟨"A", 0, 0⟩ none) = none →
        playGame (initRound ['c', 'a', 't'] ⟨"A", 0, 0⟩ none) ["ab"] =
          playGame (initRound ['c', 'a', 't'] ⟨"A", 0, 0⟩ none) []) :=
  ⟨by decide,
   (C6_invalid_rejected (initRound ['c', 'a', 't'] ⟨"A", 0, 0⟩ none) "ab" []
     (by decide)).1,
   (C6_invalid_rejected (initRound ['c', 'a', 't'] ⟨"A", 0, 0⟩ none) "ab" []
     (by decide)).2⟩

/-- Claim C7: a guess already in the wrong-guess list is rejected with the
state unchanged and the loop moving on; in particular a second occurrence
of the same wrong letter leaves the attempt counter where the first left
it. -/
theorem C7_duplicate_rejected (s : RoundState) (g : String) (rest : List String)
    (hdup : g ∈ s.wrong_letters) :
    processGuess s g = s
    ∧ (checkTerminal s = none → playGame s (g :: rest) = playGame s rest)
    ∧ (∀ (t : RoundState) (c : Char), String.mk [c] ∉ t.wrong_letters →
        c.isAlpha = true → c ∉ t.word →
        (processGuess (processGuess t (String.mk [c])) (String.mk [c])).attempt =
          (processGuess t (String.mk [c])).attempt) := by
  refine ⟨processGuess_dup s g hdup, fun hterm => ?_, fun t c h1 h2 h3 => ?_⟩
  · rw [playGame_cons s g rest hterm, processGuess_dup s g hdup]
  · rw [processGuess_wrong t c h1 h2 h3,
      processGuess_dup _ (String.mk [c]) (by simp)]

/-- Witness for C7: the wrong letter `x` guessed again. -/
theorem C7_duplicate_witness :
    ("x" ∈ (["x"] : List String))
    ∧ processGuess ⟨['c', 'a', 't'], ['_', '_', '_'], ["x"], 1, ⟨"A", 0, 0⟩, none⟩ "x" =
        ⟨['c', 'a', 't'], ['_', '_', '_'], ["x"], 1, ⟨"A", 0, 0⟩, none⟩ :=
  ⟨by decide,
   (C7_duplicate_rejected ⟨['c', 'a', 't'], ['_', '_', '_'], ["x"], 1,
     ⟨"A", 0, 0⟩, none⟩ "x" [] (by decide)).1⟩

/-- Claim C8: after `create_player name`, reading the file back maps `name`
to an entry whose fields are literally `Score` and `Rounds` holding 0 and 0,
whatever was on file before — including an existing entry for the same
name, which is silently overwritten. -/
theorem C8_create_roundtrip :
    (∀ (name : String) (file : Option Store),
        dictLookup name (load_players (some (create_player name file).2)) =
          some [("Score", 0), ("Rounds", 0)])
    ∧ dictLookup "Alice" (load_players (some (create_player "Alice"
        (some [("Alice", playerEntry 50 3)])).2)) =
        some [("Score", 0), ("Rounds", 0)] :=
  ⟨fun name file => dictLookup_dictInsert_self name (playerEntry 0 0) (load_players file),
   by decide⟩

/-- Claim C9: `update_player` is idempotent — updating again from the file
just written changes nothing — and each call rewrites exactly this player's
entry with the current score and rounds, leaving every other name's entry
as loaded. -/
theorem C9_update_idempotent (p : Player) (file : Option Store) :
    update_player p (some (update_player p file)) = update_player p file
    ∧ dictLookup p.player_name (update_player p file) =
        some (playerEntry p.score p.rounds)
    ∧ (∀ q, q ≠ p.player_name →
        dictLookup q (update_player p file) = dictLookup q (load_players file)) :=
  ⟨dictInsert_idem p.player_name (playerEntry p.score p.rounds) (load_players file),
   dictLookup_dictInsert_self p.player_name (playerEntry p.score p.rounds) (load_players file),
   fun q hq => dictLookup_dictInsert_ne p.player_name q
     (playerEntry p.score p.rounds) (load_players file) hq⟩

/-- Witness for C9: Alice's update over a file holding Bob. -/
theorem C9_update_witness :
    ("Bob" ≠ "Alice")
    ∧ update_player ⟨"Alice", 20, 2⟩
        (some (update_player ⟨"Alice", 20, 2⟩ (some [("Bob", playerEntry 5 1)]))) =
        update_player ⟨"Alice", 20, 2⟩ (some [("Bob", playerEntry 5 1)])
    ∧ dictLookup "Alice" (update_player ⟨"Alice", 20, 2⟩
        (some [("Bob", playerEntry 5 1)])) = some (playerEntry 20 2)
    ∧ dictLookup "Bob" (update_player ⟨"Alice", 20, 2⟩
        (some [("Bob", playerEntry 5 1)])) =
        dictLookup "Bob" (load_players (some [("Bob", playerEntry 5 1)])) :=
  ⟨by decide,
   (C9_update_idempotent ⟨"Alice", 20, 2⟩ (some [("Bob", playerEntry 5 1)])).1,
   (C9_update_idempotent ⟨"Alice", 20, 2⟩ (some [("Bob", playerEntry 5 1)])).2.1,
   (C9_update_idempotent ⟨"Alice", 20, 2⟩ (some [("Bob", playerEntry 5 1)])).2.2
     "Bob" (by decide)⟩

/-- Claim C10: a letter all of whose occurrences are already revealed is
accepted into the correct-guess branch again — another 10 points, nothing
else changed — so by repeating such a letter a round over `cat` ends with
60 points, more than 10 per distinct letter. -/
theorem C10_rescore_revealed (s : RoundState) (c : Char)
    (hdup : String.mk [c] ∉ s.wrong_letters) (ha : c.isAlpha = true)
    (hin : c ∈ s.word)
    (hrev : reveal s.word s.guessed_letters c = s.guessed_letters) :
    processGuess s (String.mk [c]) =
      { s with player := { s.player with score := s.player.score + 10 } }
    ∧ (∃ r, playGame (initRound ['c', 'a', 't'] ⟨"A", 0, 0⟩ none)
          ["c", "c", "c", "c", "a", "t"] = some r
        ∧ r.player.score = 60
        ∧ r.player.score > 10 * (['c', 'a', 't'].dedup.length)) := by
  constructor
  · rw [processGuess_correct s c hdup ha hin, hrev]
  · exact ⟨⟨true, none, ⟨"A", 60, 1⟩, [("A", playerEntry 60 1)]⟩,
      by decide, by decide, by decide⟩

/-- Witness for C10: re-guessing `a` in a fully revealed round over `aa`. -/
theorem C10_rescore_witness :
    ('a' ∈ (['a', 'a'] : List Char)
      ∧ reveal ['a', 'a'] ['a', 'a'] 'a' = ['a', 'a'])
    ∧ processGuess ⟨['a', 'a'], ['a', 'a'], [], 0, ⟨"A", 20, 0⟩, none⟩ (String.mk ['a']) =
        ⟨['a', 'a'], ['a', 'a'], [], 0, ⟨"A", 30, 0⟩, none⟩ :=
  ⟨⟨by decide, by decide⟩,
   (C10_rescore_revealed ⟨['a', 'a'], ['a', 'a'], [], 0, ⟨"A", 20, 0⟩, none⟩ 'a'
     (by decide) (by decide) (by decide) (by decide)).1⟩

end Hangman
